import Mathlib

/-!
Verification of the backend-ai-subtitler repository.

This file gives a shallow embedding, in Lean 4, of the pure computational
core of the repository: the two seconds-to-VTT-timestamp encoders, the
word-token-to-subtitle-segment builder, the two VTT serializers, the
non-YouTube media-acquisition fallback chain, the streaming-upload retry
loop, the MyMemory/mirror translation fallback, the translate-subtitles
route logic, and the backend language-code normalizer.

Conventions used throughout the embedding:
* JS numbers are modelled as exact rationals (`ℚ`); `NaN` is modelled by
  `none` in an `Option ℚ` where the source can receive a non-numeric value.
* `Math.floor` on a rational is `Int.floor`; `Math.round` is
  `fun q => ⌊q + 1/2⌋` (JS rounds half toward positive infinity);
  JS `/` followed by `Math.floor` on integers is `Int.fdiv`, and the JS `%`
  remainder (sign of the dividend) on integers is `Int.tmod`.
* JS strings are Lean `String`s; `x || y` for strings is
  `if x = "" then y else x` (the empty string is the only falsy string).
* Case conversion is modelled for the ASCII range, which is the range the
  source's regular expressions and language tables operate on.
* Network calls are modelled as oracle functions passed in as arguments;
  an `Except`/`Option` result models success vs. a thrown error.
-/

/-! ## JS primitives -/

/-- JS `Number(x) || 0`: `NaN` (modelled as `none`) and `0` both collapse to `0`. -/
def jsOr0 : Option ℚ → ℚ
  | none => 0
  | some q => if q = 0 then 0 else q

/-- JS `Math.round(x) = ⌊x + 1/2⌋` (half toward positive infinity). -/
def jsRound (q : ℚ) : ℤ := ⌊q + 1/2⌋

/-- JS `String.prototype.padStart(n, c)`. -/
def jsPadStart (s : String) (n : ℕ) (c : Char) : String :=
  String.mk (List.replicate (n - s.length) c) ++ s

/-- `String(n).padStart(2, "0")` as used by both timestamp encoders. -/
def jsPad2 (n : ℤ) : String := jsPadStart (toString n) 2 '0'

/-- `String(n).padStart(3, "0")` as used for the millisecond field. -/
def jsPad3 (n : ℤ) : String := jsPadStart (toString n) 3 '0'

/-- JS `a || b` for strings: `a` unless `a` is the empty string. -/
def jsOrStr (a b : String) : String := if a = "" then b else a

/-! ## TimeCodec: the two seconds-to-timestamp encoders

`toVttTime` (transcribe.js) truncates to milliseconds with `Math.floor` and
decomposes with `%`/`/` by 3600000 / 60000 / 1000.
`secToVttTimestamp` (index.js; the identical local helper inside
`buildVttFromSegments` and the translated-VTT writer) rounds with
`Math.round` and decomposes by repeated division by 1000 / 60 / 60.
Each is split here into the rational-to-integer-milliseconds step and a
pure-integer formatting step. -/

/-- Formatting part of `toVttTime` (transcribe.js): fields computed from the
floored millisecond count by `Math.floor(ms / 3600000)` etc. -/
def vttFromMs (ms : ℤ) : String :=
  let hours : ℤ := Int.fdiv ms 3600000
  let minutes : ℤ := Int.fdiv (Int.tmod ms 3600000) 60000
  let secs : ℤ := Int.fdiv (Int.tmod ms 60000) 1000
  let milliseconds : ℤ := Int.tmod ms 1000
  jsPad2 hours ++ ":" ++ jsPad2 minutes ++ ":" ++ jsPad2 secs ++ "." ++ jsPad3 milliseconds

/-- `toVttTime(seconds)` from transcribe.js:
`const sec = Number(seconds) || 0; const ms = Math.floor(sec * 1000); ...`. -/
def toVttTime (seconds : Option ℚ) : String :=
  vttFromMs ⌊jsOr0 seconds * 1000⌋

/-- Formatting part of `secToVttTimestamp` (index.js): fields computed from
the rounded millisecond count by repeated `Math.floor(s / 60)` and `% 60`. -/
def secFromMs (totalMs : ℤ) : String :=
  let ms : ℤ := Int.tmod totalMs 1000
  let s1 : ℤ := Int.fdiv totalMs 1000
  let secs : ℤ := Int.tmod s1 60
  let s2 : ℤ := Int.fdiv s1 60
  let mins : ℤ := Int.tmod s2 60
  let hrs : ℤ := Int.fdiv s2 60
  jsPad2 hrs ++ ":" ++ jsPad2 mins ++ ":" ++ jsPad2 secs ++ "." ++ jsPad3 ms

/-- `secToVttTimestamp(t)` from index.js:
`const totalMs = Math.round((t || 0) * 1000); ...`. The local `toVttTime`
helpers inside `buildVttFromSegments` and `requestAssemblyAITranslation`
are character-for-character identical to this function. -/
def secToVttTimestamp (t : Option ℚ) : String :=
  secFromMs (jsRound (jsOr0 t * 1000))

lemma jsOr0_some (q : ℚ) : jsOr0 (some q) = q := by
  by_cases h : q = 0 <;> simp [jsOr0, h]

lemma natCast_fdiv (m k : ℕ) : Int.fdiv (m : ℤ) (k : ℤ) = ((m / k : ℕ) : ℤ) :=
  (Int.ofNat_fdiv m k).symm

lemma natCast_tmod (m k : ℕ) : Int.tmod (m : ℤ) (k : ℤ) = ((m % k : ℕ) : ℤ) :=
  (Int.ofNat_tmod m k).symm

/-- On a nonnegative whole number of milliseconds the two formatting
decompositions agree. -/
lemma vttFromMs_eq_secFromMs (n : ℕ) : vttFromMs (n : ℤ) = secFromMs (n : ℤ) := by
  simp only [vttFromMs, secFromMs]
  rw [show (3600000:ℤ) = ((3600000:ℕ):ℤ) by norm_cast,
      show (60000:ℤ) = ((60000:ℕ):ℤ) by norm_cast,
      show (1000:ℤ) = ((1000:ℕ):ℤ) by norm_cast,
      show (60:ℤ) = ((60:ℕ):ℤ) by norm_cast]
  simp only [natCast_fdiv, natCast_tmod]
  have h1 : n / 3600000 = n / 1000 / 60 / 60 := by omega
  have h2 : (n % 3600000) / 60000 = (n / 1000 / 60) % 60 := by omega
  have h3 : (n % 60000) / 1000 = (n / 1000) % 60 := by omega
  rw [h1, h2, h3]

lemma jsRound_natCast (n : ℕ) : jsRound (n : ℚ) = (n : ℤ) := by
  rw [jsRound]
  have h : ((n : ℚ) + 1/2) = (1/2 : ℚ) + (n : ℕ) := by ring
  rw [h, Int.floor_add_nat]
  norm_num

/-! ## CueBuilder: word tokens to subtitle segments

The segment-building loop appears identically three times in the source
(`transcribeWithAssemblyAI`, `transcribeWithAssemblyAIAudioUrl`, and the
transcript-fetch branch of `app.post("/translate-subtitles")`).  A word
token carries millisecond timestamps; a segment carries second timestamps
(the source divides by 1000 when seeding and extending segments). -/

/-- A word token as returned by the transcription provider: `start`/`stop`
are the source's `w.start`/`w.end` in milliseconds, and `text` is
`w.text || w.word` (the source's fallback between the two field names is
collapsed into the single `text` field). -/
structure Word where
  start : ℚ
  stop : ℚ
  text : String
deriving DecidableEq

/-- A subtitle segment `{ start, end, text }` with times in seconds
(`stop` stands for the source's `end`, a Lean keyword). -/
structure Seg where
  start : ℚ
  stop : ℚ
  text : String
deriving DecidableEq

/-- `if (segment.text.length > 0) segment.text += " "; segment.text += w.text`. -/
def appendTok (acc t : String) : String :=
  if acc.length > 0 then acc ++ " " ++ t else acc ++ t

/-- Loop state of the segment-building loop: the open segment, `blockTime`
(the open segment's start) and the list of closed segments pushed so far. -/
structure BuildState where
  seg : Seg
  blockTime : ℚ
  acc : List Seg

/-- One iteration of `for (const w of result.words) { ... }`: append the
token's text, extend the end to `w.end / 1000`, and when
`segment.end - blockTime > 5` push the (extended) segment and re-seed a new
segment from the current token. -/
def stepWord (st : BuildState) (w : Word) : BuildState :=
  let text1 := appendTok st.seg.text w.text
  let seg1 : Seg := { start := st.seg.start, stop := w.stop / 1000, text := text1 }
  if seg1.stop - st.blockTime > 5 then
    { seg := { start := w.start / 1000, stop := w.stop / 1000, text := w.text },
      blockTime := w.start / 1000,
      acc := st.acc ++ [seg1] }
  else
    { st with seg := seg1 }

/-- The whole segment-building loop on a word list.  The source initializes
`segment = { start: words[0].start / 1000, end: null, text: "" }` (the
`null` end is always overwritten before it can be observed; it is `0`
here), runs the loop, and flushes the trailing segment when its text is
nonempty (`if (segment.text) segments.push({...segment})`). -/
def buildSegments (words : List Word) : List Seg :=
  match words with
  | [] => []
  | w0 :: _ =>
    let st := words.foldl stepWord
      { seg := { start := w0.start / 1000, stop := 0, text := "" },
        blockTime := w0.start / 1000, acc := [] }
    if st.seg.text ≠ "" then st.acc ++ [st.seg] else st.acc

/-- Space-joining helper for stating properties about accumulated text:
`spaceJoinAux ts` is `" " ++ t` for each element. -/
def spaceJoinAux : List String → String
  | [] => ""
  | t :: ts => " " ++ t ++ spaceJoinAux ts

/-- The space-join of a list of texts, as produced by the accumulation
`if (segment.text.length > 0) segment.text += " "; segment.text += w.text`
over nonempty texts. -/
def spaceJoin : List String → String
  | [] => ""
  | t :: ts => t ++ spaceJoinAux ts

/-- `lastStop d ws` is the end time (seconds) of the last word of `ws`,
or `d` when `ws` is empty. -/
def lastStop (d : ℚ) : List Word → ℚ
  | [] => d
  | w :: ws => lastStop (w.stop / 1000) ws

lemma foldl_stepWord_no_overflow (ws : List Word) (sg : Seg) (bt : ℚ) (acc : List Seg)
    (hok : ∀ w ∈ ws, w.stop / 1000 - bt ≤ 5) (hlen : 0 < sg.text.length) :
    ws.foldl stepWord ⟨sg, bt, acc⟩ =
      ⟨⟨sg.start, lastStop sg.stop ws, sg.text ++ spaceJoinAux (ws.map Word.text)⟩, bt, acc⟩ := by
  induction ws generalizing sg with
  | nil => simp [lastStop, spaceJoinAux]
  | cons w ws ih =>
    have hw : w.stop / 1000 - bt ≤ 5 := hok w (by simp)
    have hnot : ¬ (w.stop / 1000 - bt > 5) := by linarith
    have hstep : stepWord ⟨sg, bt, acc⟩ w =
        ⟨⟨sg.start, w.stop / 1000, sg.text ++ " " ++ w.text⟩, bt, acc⟩ := by
      simp [stepWord, appendTok, hlen, hnot]
    rw [List.foldl_cons, hstep,
        ih ⟨sg.start, w.stop / 1000, sg.text ++ " " ++ w.text⟩
          (fun x hx => hok x (by simp [hx]))
          (by simp; omega)]
    simp [lastStop, spaceJoinAux, String.append_assoc]

/-- The three-token stream of the C1 example: `(0s,3s), (3s,4s), (4s,9s)`
in milliseconds. -/
def c1tokens : List Word := [⟨0, 3000, "t1"⟩, ⟨3000, 4000, "t2"⟩, ⟨4000, 9000, "t3"⟩]

/-! ## SubtitleSerializer: the two VTT renderers

`buildVtt` (transcribe.js) accumulates a single string with
`vtt += `...``; it does NOT touch the cue text.
`buildVttFromSegments` (index.js) accumulates a line array and joins with
`"\n"`; it replaces CRLF (`/\r\n/g`) by `"\n"` in each cue text. -/

/-- JS `String.prototype.replace(/\r\n/g, "\n")` at the character level:
leftmost, non-overlapping occurrences of the pair CR LF become LF. -/
def replaceCRLF : List Char → List Char
  | [] => []
  | '\r' :: '\n' :: rest => '\n' :: replaceCRLF rest
  | c :: rest => c :: replaceCRLF rest

/-- String wrapper for `replace(/\r\n/g, "\n")`. -/
def jsReplaceCRLF (s : String) : String := String.mk (replaceCRLF s.data)

/-- JS `Array.prototype.join("\n")`. -/
def joinLines : List String → String
  | [] => ""
  | [l] => l
  | l :: ls => l ++ "\n" ++ joinLines ls

/-- The `lines.push(...)` sequence of `buildVttFromSegments` for the cue list
starting at 0-based index `i`: sequence number, timestamp line, text with
CRLF normalized, blank separator. -/
def vttLinesFrom : ℕ → List Seg → List String
  | _, [] => []
  | i, s :: rest =>
    toString (i + 1) ::
      (secToVttTimestamp (some s.start) ++ " --> " ++ secToVttTimestamp (some s.stop)) ::
      jsReplaceCRLF (jsOrStr s.text "") :: "" :: vttLinesFrom (i + 1) rest

/-- `buildVttFromSegments(segments)` from index.js: lines `["WEBVTT", ""]`
followed by four lines per segment, joined by `"\n"`. -/
def buildVttFromSegments (segments : List Seg) : String :=
  joinLines (["WEBVTT", ""] ++ vttLinesFrom 0 segments)

/-- The per-cue accumulation of `buildVtt` (transcribe.js) from 0-based
index `i`: `vtt += `${idx+1}\n${start} --> ${end}\n${text}\n\n``; the text
is emitted verbatim (`seg.text || ""`). -/
def buildVttBody : ℕ → List Seg → String
  | _, [] => ""
  | i, s :: rest =>
    toString (i + 1) ++ "\n" ++ toVttTime (some s.start) ++ " --> " ++
      toVttTime (some s.stop) ++ "\n" ++ jsOrStr s.text "" ++ "\n\n" ++
      buildVttBody (i + 1) rest

/-- `buildVtt(segments, fullText)` from transcribe.js: header `"WEBVTT\n\n"`;
with no segments and nonempty full text, a single sentinel one-hour block;
otherwise one block per segment. -/
def buildVtt (segments : List Seg) (fullText : String) : String :=
  if segments = [] then
    if fullText ≠ "" then
      "WEBVTT\n\n" ++ "1\n00:00:00.000 --> 01:00:00.000\n" ++ fullText ++ "\n\n"
    else "WEBVTT\n\n"
  else "WEBVTT\n\n" ++ buildVttBody 0 segments

/-- One rendered cue block of `buildVttFromSegments`, with trailing blank
separator line. -/
def cueBlock (i : ℕ) (s : Seg) : String :=
  toString (i + 1) ++ "\n" ++
    (secToVttTimestamp (some s.start) ++ " --> " ++ secToVttTimestamp (some s.stop)) ++ "\n" ++
    jsReplaceCRLF (jsOrStr s.text "") ++ "\n" ++ "\n"

/-- Concatenation of rendered cue blocks from 0-based index `i`. -/
def cueBlocks : ℕ → List Seg → String
  | _, [] => ""
  | i, s :: rest => cueBlock i s ++ cueBlocks (i + 1) rest

lemma joinLines_cons (l : String) (ls : List String) (h : ls ≠ []) :
    joinLines (l :: ls) = l ++ "\n" ++ joinLines ls := by
  cases ls with
  | nil => exact absurd rfl h
  | cons a as => rfl

lemma vttLinesFrom_ne_nil (i : ℕ) (s : Seg) (rest : List Seg) :
    vttLinesFrom i (s :: rest) ≠ [] := by
  simp [vttLinesFrom]

lemma newline_pair (x : String) : "\n" ++ ("\n" ++ x) = "\n\n" ++ x := by
  rw [← String.append_assoc]
  exact congrArg (fun y => y ++ x) (by decide)

lemma joinLines_vttLinesFrom (i : ℕ) (segs : List Seg) (h : segs ≠ []) :
    joinLines (vttLinesFrom i segs) ++ "\n" = cueBlocks i segs := by
  induction segs generalizing i with
  | nil => exact absurd rfl h
  | cons s rest ih =>
    cases rest with
    | nil =>
      simp [vttLinesFrom, joinLines, cueBlocks, cueBlock, String.append_assoc]
    | cons s2 rest2 =>
      rw [vttLinesFrom, joinLines_cons _ _ (by simp [vttLinesFrom]),
          joinLines_cons _ _ (by simp [vttLinesFrom]),
          joinLines_cons _ _ (by simp [vttLinesFrom, vttLinesFrom_ne_nil]),
          joinLines_cons _ _ (vttLinesFrom_ne_nil _ _ _)]
      rw [cueBlocks, cueBlock, ← ih (i + 1) (by simp)]
      simp [String.append_assoc, newline_pair]

lemma buildVttFromSegments_blocks (segs : List Seg) (h : segs ≠ []) :
    buildVttFromSegments segs ++ "\n" = "WEBVTT\n\n" ++ cueBlocks 0 segs := by
  cases segs with
  | nil => exact absurd rfl h
  | cons s rest =>
    rw [buildVttFromSegments,
        show ["WEBVTT", ""] ++ vttLinesFrom 0 (s :: rest) =
          "WEBVTT" :: "" :: vttLinesFrom 0 (s :: rest) from rfl,
        joinLines_cons _ _ (by simp [vttLinesFrom]),
        joinLines_cons _ _ (vttLinesFrom_ne_nil 0 s rest)]
    rw [String.append_assoc, String.append_assoc,
        ← joinLines_vttLinesFrom 0 (s :: rest) (by simp)]
    rw [← String.append_assoc]
    exact congrArg (fun y => y ++ (joinLines (vttLinesFrom 0 (s :: rest)) ++ "\n"))
      (show "WEBVTT" ++ "\n\n" = "WEBVTT\n\n" by decide)

/-! ## MediaAcquirer: non-YouTube fallback chain and streaming retry

`app.post("/upload-from-url")` (index.js), non-YouTube branch: try
`fetchRemoteToCloudinary(url, ...)`; on a thrown error, fall back to
`downloadVideoFromUrl(url)` (full download to local disk) and then
`uploadVideoFile(tempFile, ...)`.  The streaming helper
`uploadRemoteUrlToCloudinaryStream` (cloudinaryClient.js) exists and is
imported by index.js but is not invoked anywhere in either route file.

Each external call is an oracle argument; `Except.error msg` models a
thrown error.  The acquisition function additionally records, in order,
which strategies were attempted. -/

/-- The acquisition strategies named by the spec's `AcquisitionOutcome`. -/
inductive Strategy where
  | remoteFetch
  | streamUpload
  | downloadThenUpload
deriving DecidableEq

/-- Result of an object-store upload (`secure_url`, `public_id`). -/
structure UploadResult where
  secureUrl : String
  publicId : String
deriving DecidableEq

/-- The non-YouTube branch of `app.post("/upload-from-url")`:
`fetchRemoteToCloudinary` first; on failure `downloadVideoFromUrl` then
`uploadVideoFile`.  Returns the outcome together with the ordered list of
strategies actually attempted. -/
def acquireNonYT (fetchRemote : Except String UploadResult)
    (download : Except String String)
    (uploadLocal : String → Except String UploadResult) :
    Except String UploadResult × List Strategy :=
  match fetchRemote with
  | .ok r => (.ok r, [.remoteFetch])
  | .error _ =>
    match download with
    | .error e => (.error e, [.remoteFetch, .downloadThenUpload])
    | .ok tempFile =>
      match uploadLocal tempFile with
      | .ok r => (.ok r, [.remoteFetch, .downloadThenUpload])
      | .error e => (.error e, [.remoteFetch, .downloadThenUpload])

/-- The retry loop of `uploadRemoteUrlToCloudinaryStream`
(cloudinaryClient.js): `for (let attempt = 1; attempt <= ATTEMPTS; attempt++)`
with `ATTEMPTS = 3`; on a failed attempt with `attempt < ATTEMPTS`, sleep
`Math.round(Math.pow(2, attempt) * 1000 + Math.random() * 500)` ms and
retry; after the last failure throw the last error.  `outcome a` is the
result of attempt number `a` (HTTP GET + status/content-length validation +
pipe into `upload_stream`, collapsed into one oracle); `jitter a` is the
value of `Math.random() * 500` before retry `a + 1`.  Returns the final
result, the list of sleep delays (ms), and the number of attempts made. -/
def streamGo (outcome : ℕ → Except String UploadResult) (jitter : ℕ → ℚ) :
    ℕ → ℕ → Except String UploadResult × List ℤ × ℕ
  | 0, _ => (.error "Stream failed after retries", [], 0)
  | rem + 1, attempt =>
    match outcome attempt with
    | .ok r => (.ok r, [], 1)
    | .error e =>
      if rem > 0 then
        let delay := jsRound ((2 : ℚ) ^ attempt * 1000 + jitter attempt)
        let rest := streamGo outcome jitter rem (attempt + 1)
        (rest.1, delay :: rest.2.1, rest.2.2 + 1)
      else
        (.error e, [], 1)

/-- `uploadRemoteUrlToCloudinaryStream` retry structure: three attempts
starting at attempt number 1. -/
def uploadRemoteUrlToCloudinaryStream (outcome : ℕ → Except String UploadResult)
    (jitter : ℕ → ℚ) : Except String UploadResult × List ℤ × ℕ :=
  streamGo outcome jitter 3 1

lemma jsRound_jitter_bounds (a : ℕ) (j : ℚ) (h0 : 0 ≤ j) (h5 : j < 500) :
    ((2 : ℤ) ^ a * 1000 : ℤ) ≤ jsRound ((2 : ℚ) ^ a * 1000 + j) ∧
      jsRound ((2 : ℚ) ^ a * 1000 + j) ≤ (2 : ℤ) ^ a * 1000 + 500 := by
  constructor
  · rw [jsRound]
    apply Int.le_floor.mpr
    push_cast
    linarith
  · have hlt : jsRound ((2 : ℚ) ^ a * 1000 + j) < (2 : ℤ) ^ a * 1000 + 501 := by
      rw [jsRound]
      apply Int.floor_lt.mpr
      push_cast
      linarith
    omega

lemma streamRun_ok1 (outcome : ℕ → Except String UploadResult) (jitter : ℕ → ℚ)
    (r1 : UploadResult) (h1 : outcome 1 = .ok r1) :
    uploadRemoteUrlToCloudinaryStream outcome jitter = (.ok r1, [], 1) := by
  simp [uploadRemoteUrlToCloudinaryStream, streamGo, h1]

lemma streamRun_ok2 (outcome : ℕ → Except String UploadResult) (jitter : ℕ → ℚ)
    (e1 : String) (r2 : UploadResult)
    (h1 : outcome 1 = .error e1) (h2 : outcome 2 = .ok r2) :
    uploadRemoteUrlToCloudinaryStream outcome jitter =
      (.ok r2, [jsRound ((2 : ℚ) ^ 1 * 1000 + jitter 1)], 2) := by
  simp [uploadRemoteUrlToCloudinaryStream, streamGo, h1, h2]

lemma streamRun_ok3 (outcome : ℕ → Except String UploadResult) (jitter : ℕ → ℚ)
    (e1 e2 : String) (r3 : UploadResult)
    (h1 : outcome 1 = .error e1) (h2 : outcome 2 = .error e2) (h3 : outcome 3 = .ok r3) :
    uploadRemoteUrlToCloudinaryStream outcome jitter =
      (.ok r3, [jsRound ((2 : ℚ) ^ 1 * 1000 + jitter 1),
                jsRound ((2 : ℚ) ^ 2 * 1000 + jitter 2)], 3) := by
  simp [uploadRemoteUrlToCloudinaryStream, streamGo, h1, h2, h3]

lemma streamRun_allFail (outcome : ℕ → Except String UploadResult) (jitter : ℕ → ℚ)
    (e1 e2 e3 : String)
    (h1 : outcome 1 = .error e1) (h2 : outcome 2 = .error e2) (h3 : outcome 3 = .error e3) :
    uploadRemoteUrlToCloudinaryStream outcome jitter =
      (.error e3, [jsRound ((2 : ℚ) ^ 1 * 1000 + jitter 1),
                   jsRound ((2 : ℚ) ^ 2 * 1000 + jitter 2)], 3) := by
  simp [uploadRemoteUrlToCloudinaryStream, streamGo, h1, h2, h3]

lemma uploadStream_retry_bounds (outcome : ℕ → Except String UploadResult) (jitter : ℕ → ℚ)
    (hj : ∀ a, 0 ≤ jitter a ∧ jitter a < 500) :
    (uploadRemoteUrlToCloudinaryStream outcome jitter).2.2 ≤ 3 ∧
    (uploadRemoteUrlToCloudinaryStream outcome jitter).2.1.length ≤ 2 ∧
    (∀ k, k < (uploadRemoteUrlToCloudinaryStream outcome jitter).2.1.length →
      ((2 : ℤ) ^ (k + 1) * 1000 ≤ (uploadRemoteUrlToCloudinaryStream outcome jitter).2.1.getD k 0 ∧
       (uploadRemoteUrlToCloudinaryStream outcome jitter).2.1.getD k 0 ≤ (2 : ℤ) ^ (k + 1) * 1000 + 500)) := by
  have hb1 := jsRound_jitter_bounds 1 (jitter 1) (hj 1).1 (hj 1).2
  have hb2 := jsRound_jitter_bounds 2 (jitter 2) (hj 2).1 (hj 2).2
  rcases h1 : outcome 1 with e1 | r1
  · rcases h2 : outcome 2 with e2 | r2
    · rcases h3 : outcome 3 with e3 | r3
      · rw [streamRun_allFail outcome jitter e1 e2 e3 h1 h2 h3]
        refine ⟨by norm_num, by norm_num, ?_⟩
        intro k hk
        simp at hk
        match k, hk with
        | 0, _ => simpa using hb1
        | 1, _ => simpa using hb2
      · rw [streamRun_ok3 outcome jitter e1 e2 r3 h1 h2 h3]
        refine ⟨by norm_num, by norm_num, ?_⟩
        intro k hk
        simp at hk
        match k, hk with
        | 0, _ => simpa using hb1
        | 1, _ => simpa using hb2
    · rw [streamRun_ok2 outcome jitter e1 r2 h1 h2]
      refine ⟨by norm_num, by norm_num, ?_⟩
      intro k hk
      simp at hk
      subst hk
      simpa using hb1
  · rw [streamRun_ok1 outcome jitter r1 h1]
    simp

/-! ## Language-code normalization (index.js)

`normLangBackend` and `LANG_MAP_BACKEND`.  JS string primitives are
modelled at the character-list level; case conversion is modelled on the
ASCII range, which is all that the source's regular expression
`/^[A-Za-z]{2}(-[A-Za-z]{2,4})?$/` and lower-case map keys can match. -/

/-- JS whitespace for `trim` / `\s`, restricted to the ASCII range. -/
def isJsWs (c : Char) : Bool :=
  c = ' ' || c = '\t' || c = '\n' || c = '\r' || c = '\x0b' || c = '\x0c'

/-- ASCII upper-case letter test (by code point). -/
def isUpperAlpha (c : Char) : Bool := decide (65 ≤ c.toNat ∧ c.toNat ≤ 90)

/-- ASCII lower-case letter test (by code point). -/
def isLowerAlpha (c : Char) : Bool := decide (97 ≤ c.toNat ∧ c.toNat ≤ 122)

/-- `[A-Za-z]` test. -/
def isAsciiAlpha (c : Char) : Bool := isUpperAlpha c || isLowerAlpha c

/-- `toLowerCase` on one character (ASCII range). -/
def jsCharLower (c : Char) : Char :=
  if 65 ≤ c.toNat ∧ c.toNat ≤ 90 then Char.ofNat (c.toNat + 32) else c

/-- `toUpperCase` on one character (ASCII range). -/
def jsCharUpper (c : Char) : Char :=
  if 97 ≤ c.toNat ∧ c.toNat ≤ 122 then Char.ofNat (c.toNat - 32) else c

/-- JS `String.prototype.toLowerCase` (ASCII range). -/
def jsToLower (s : String) : String := String.mk (s.data.map jsCharLower)

/-- JS `String.prototype.toUpperCase` (ASCII range). -/
def jsToUpper (s : String) : String := String.mk (s.data.map jsCharUpper)

/-- JS `String.prototype.trim` at the character level. -/
def trimList (l : List Char) : List Char :=
  ((l.dropWhile isJsWs).reverse.dropWhile isJsWs).reverse

/-- JS `String.prototype.trim`. -/
def jsTrim (s : String) : String := String.mk (trimList s.data)

/-- The test `/^[A-Za-z]{2}(-[A-Za-z]{2,4})?$/.test(s)`. -/
def langRegexTest : List Char → Bool
  | [a, b] => isAsciiAlpha a && isAsciiAlpha b
  | a :: b :: '-' :: rest =>
    isAsciiAlpha a && isAsciiAlpha b &&
      decide (2 ≤ rest.length) && decide (rest.length ≤ 4) && rest.all isAsciiAlpha
  | _ => false

/-- JS `s.split("-")` at the character level. -/
def splitOnDash : List Char → List (List Char)
  | [] => [[]]
  | c :: rest =>
    if c = '-' then [] :: splitOnDash rest
    else
      match splitOnDash rest with
      | [] => [[c]]
      | p :: ps => (c :: p) :: ps

/-- JS `replace(/\s+/g, "_")`, run-collapsing: the flag records whether the
previous character was whitespace (inside a run already replaced). -/
def wsToUnderscoreAux : Bool → List Char → List Char
  | _, [] => []
  | inRun, c :: rest =>
    if isJsWs c then
      if inRun then wsToUnderscoreAux true rest
      else '_' :: wsToUnderscoreAux true rest
    else c :: wsToUnderscoreAux false rest

/-- JS `replace(/\s+/g, "_")`: each maximal whitespace run becomes one
underscore. -/
def wsToUnderscore (l : List Char) : List Char := wsToUnderscoreAux false l

/-- JS `replace(/[()]/g, "")`. -/
def removeParens (l : List Char) : List Char :=
  l.filter (fun c => c ≠ '(' && c ≠ ')')

/-- `/^auto$/i.test(s)`. -/
def jsAutoTest (s : String) : Bool := jsToLower s = "auto"

/-- `LANG_MAP_BACKEND` from index.js, in source order. -/
def LANG_MAP_BACKEND : List (String × String) :=
  [("english", "en"), ("en", "en"),
   ("hindi", "hi"), ("hi", "hi"),
   ("spanish", "es"), ("es", "es"),
   ("french", "fr"), ("fr", "fr"),
   ("chinese", "zh-CN"),
   ("chinese_simplified", "zh-CN"),
   ("chinese_traditional", "zh-TW"),
   ("japanese", "ja"), ("ja", "ja"),
   ("korean", "ko"), ("ko", "ko"),
   ("german", "de"), ("de", "de"),
   ("italian", "it"), ("it", "it"),
   ("portuguese", "pt"), ("pt", "pt"),
   ("russian", "ru"), ("ru", "ru"),
   ("arabic", "ar"), ("ar", "ar"),
   ("turkish", "tr"), ("tr", "tr")]

/-- `LANG_MAP_BACKEND[key] || "auto"` restricted to the object literal's OWN
entries.  This is the value of the JS expression whenever `key` is not an
inherited `Object.prototype` property name; the full JS property access,
including the prototype chain, is modelled below by `langMapAccess`. -/
def langMapLookup (key : String) : String :=
  match LANG_MAP_BACKEND.lookup key with
  | some v => jsOrStr v "auto"
  | none => "auto"

/-- `normLangBackend(l)` from index.js (the source's `const s = l.trim()` is
inlined as `jsTrim l`). -/
def normLangBackend (l : String) : String :=
  if l = "" then "auto"
  else if jsAutoTest (jsTrim l) then "auto"
  else if langRegexTest (jsTrim l).data then
    match splitOnDash (jsTrim l).data with
    | [p, q] => String.mk (p.map jsCharLower) ++ "-" ++ String.mk (q.map jsCharUpper)
    | _ => jsToLower (jsTrim l)
  else
    langMapLookup (String.mk (removeParens (wsToUnderscore (jsToLower (jsTrim l)).data)))

/-! ## TranslationEngine (index.js)

`translateTextWithFallback` iterates the `MIRRORS` list; a mirror call is
an oracle `String → String → Option String` taking the text and the
(lower-cased) target language; `none` models a thrown error and `some ""`
models a response with no usable `translatedText`/`translated` field (both
continue the loop).  `translateWithMyMemory` is the primary path with one
MyMemory oracle call, then the mirror fallback, then the original text.
Each function also counts the provider calls it makes. -/

/-- The mirror loop body of `translateTextWithFallback`: first mirror whose
response carries a nonempty translation wins; when all fail the original
text is returned (`console.warn("❗ All mirrors failed — using original
text"); return text`). -/
def mirrorLoop (text tgt : String) : List (String → String → Option String) → ℕ → String × ℕ
  | [], n => (text, n)
  | m :: ms, n =>
    match m text tgt with
    | some t => if t ≠ "" then (t, n + 1) else mirrorLoop text tgt ms (n + 1)
    | none => mirrorLoop text tgt ms (n + 1)

/-- `translateTextWithFallback(text, targetLang)`: posts to each mirror with
`target: targetLang.toLowerCase()`. -/
def translateTextWithFallback (mirrors : List (String → String → Option String))
    (text targetLang : String) : String × ℕ :=
  mirrorLoop text (jsToLower targetLang) mirrors 0

/-- `translateWithMyMemory(text, srcLang, targetLang)`: the MyMemory call
(`mm`) succeeds on a nonempty `responseData.translatedText` (`if (t &&
t.length) return t`); otherwise fall back to the mirrors and accept their
result only when nonempty and different from the original (`if (fallback &&
fallback !== text) return fallback`); otherwise return the original text. -/
def translateWithMyMemory (mm : String → String → String → Option String)
    (mirrors : List (String → String → Option String))
    (text srcLang targetLang : String) : String × ℕ :=
  match mm text srcLang targetLang with
  | some t =>
    if t ≠ "" then (t, 1)
    else
      let fb := translateTextWithFallback mirrors text targetLang
      (if fb.1 ≠ "" ∧ fb.1 ≠ text then fb.1 else text, fb.2 + 1)
  | none =>
    let fb := translateTextWithFallback mirrors text targetLang
    (if fb.1 ≠ "" ∧ fb.1 ≠ text then fb.1 else text, fb.2 + 1)

/-- The per-segment translation loop of `app.post("/translate-subtitles")`:
`const original = seg.text || ""; let translatedText = await
translateWithMyMemory(original, srcLang || "auto", tgtLang); if
(!translatedText || ...) translatedText = original;
translated.push({ ...seg, text: translatedText })`. -/
def translateLoop (mm : String → String → String → Option String)
    (mirrors : List (String → String → Option String))
    (srcLang tgtLang : String) : List Seg → List Seg × ℕ
  | [] => ([], 0)
  | seg :: rest =>
    let original := jsOrStr seg.text ""
    let r := translateWithMyMemory mm mirrors original (jsOrStr srcLang "auto") tgtLang
    let t := if r.1 = "" then original else r.1
    let restR := translateLoop mm mirrors srcLang tgtLang rest
    ({ seg with text := t } :: restR.1, r.2 + restR.2)

/-- `detectScriptFromTextSample(text)` from index.js: first matching Unicode
range wins (Devanagari, Cyrillic, Arabic, CJK, Thai, Hebrew). -/
def detectScriptFromTextSample (text : String) : Option String :=
  if text = "" then none
  else if text.data.any (fun c => decide (0x900 ≤ c.toNat ∧ c.toNat ≤ 0x97F)) then some "hi"
  else if text.data.any (fun c => decide (0x400 ≤ c.toNat ∧ c.toNat ≤ 0x4FF)) then some "ru"
  else if text.data.any (fun c => decide (0x600 ≤ c.toNat ∧ c.toNat ≤ 0x6FF)) then some "ar"
  else if text.data.any (fun c =>
      decide ((0x4E00 ≤ c.toNat ∧ c.toNat ≤ 0x9FFF) ∨ (0x3400 ≤ c.toNat ∧ c.toNat ≤ 0x4DBF)))
    then some "zh-CN"
  else if text.data.any (fun c => decide (0xE00 ≤ c.toNat ∧ c.toNat ≤ 0xE7F)) then some "th"
  else if text.data.any (fun c => decide (0x590 ≤ c.toNat ∧ c.toNat ≤ 0x5FF)) then some "he"
  else none

/-- One vote tally update: `votes[guess] = (votes[guess] || 0) + 1`,
preserving first-insertion order of the keys. -/
def addVote (votes : List (String × ℕ)) (g : String) : List (String × ℕ) :=
  if votes.any (fun p => p.1 = g) then
    votes.map (fun p => if p.1 = g then (p.1, p.2 + 1) else p)
  else votes ++ [(g, 1)]

/-- `Object.keys(votes).sort((a, b) => votes[b] - votes[a])[0]`: the
first-inserted key of maximal count (JS sort is stable). -/
def pickWinner (votes : List (String × ℕ)) : Option String :=
  match votes with
  | [] => none
  | v :: vs => some ((vs.foldl (fun best p => if p.2 > best.2 then p else best) v).1)

/-- The script-vote tally over the first (up to) 8 segments. -/
def scriptVotes (segs : List Seg) : List (String × ℕ) :=
  (segs.take 8).foldl
    (fun vs sg =>
      match detectScriptFromTextSample (jsOrStr sg.text "") with
      | some g => addVote vs g
      | none => vs) []

/-- `app.post("/translate-subtitles")` (index.js) on the provided-segments
path (the branch that rebuilds segments from a `transcriptId` when none are
provided is outside this model; `detectedLanguage = ""` models an absent
field).  Returns the translated segments together with the number of
provider calls made, or the route's 4xx error message. -/
def translateSubtitles (mm : String → String → String → Option String)
    (mirrors : List (String → String → Option String))
    (segments : List Seg) (detectedLanguage : String) (targetLang : String) :
    Except String (List Seg × ℕ) :=
  if targetLang = "" then .error "targetLang required"
  else
    let tgtLang := normLangBackend targetLang
    let srcLang0 := if detectedLanguage ≠ "" then normLangBackend detectedLanguage else "auto"
    let toTranslateSegments := segments
    let srcLang1 :=
      if (srcLang0 = "" ∨ srcLang0 = "auto" ∨ srcLang0 = "en") ∧ toTranslateSegments ≠ [] then
        match pickWinner (scriptVotes toTranslateSegments) with
        | some inferred => if inferred ≠ srcLang0 then inferred else srcLang0
        | none => srcLang0
      else srcLang0
    let srcLang := jsOrStr srcLang1 "auto"
    if toTranslateSegments = [] then
      .error "No segments to translate (provide segments or transcriptId)"
    else
      let simpleSrc := jsToLower srcLang
      let simpleTgt := jsToLower tgtLang
      if simpleSrc ≠ "auto" ∧ simpleSrc = simpleTgt then
        .ok (toTranslateSegments, 0)
      else
        .ok (translateLoop mm mirrors srcLang tgtLang toTranslateSegments)

/-! ## Shape and idempotence machinery for `normLangBackend` -/

/-- Shape test: a two-letter lower-case code. -/
def isLower2Code : List Char → Bool
  | [a, b] => isLowerAlpha a && isLowerAlpha b
  | _ => false

/-- Shape test: `lang-REGION` (two lower-case letters, dash, two to four
upper-case letters). -/
def isLangRegion : List Char → Bool
  | a :: b :: '-' :: rest =>
    isLowerAlpha a && isLowerAlpha b &&
      decide (2 ≤ rest.length) && decide (rest.length ≤ 4) && rest.all isUpperAlpha
  | _ => false

/-- The output shape asserted for the normalizer: `"auto"`, a lower-case
two-letter code, or `lang-REGION` with an upper-case region. -/
def normShape (o : String) : Bool :=
  o = "auto" || isLower2Code o.data || isLangRegion o.data

lemma toNat_charOfNat (n : ℕ) (h : n < 55296) : (Char.ofNat n).toNat = n := by
  have hv : n.isValidChar := Or.inl h
  rw [Char.ofNat, dif_pos hv]
  simp [Char.ofNatAux, Char.toNat, UInt32.toNat, BitVec.toNat_ofNatLt]

lemma isLowerAlpha_jsCharLower (c : Char) (h : isAsciiAlpha c = true) :
    isLowerAlpha (jsCharLower c) = true := by
  rw [isAsciiAlpha, Bool.or_eq_true, isUpperAlpha, isLowerAlpha] at h
  rw [jsCharLower, isLowerAlpha]
  rcases h with h | h
  · have hb := of_decide_eq_true h
    rw [if_pos hb]
    rw [decide_eq_true_iff]
    rw [toNat_charOfNat (c.toNat + 32) (by omega)]
    omega
  · have hb := of_decide_eq_true h
    rw [if_neg (by omega)]
    exact h

lemma jsCharLower_fixes_lower (c : Char) (h : isLowerAlpha c = true) :
    jsCharLower c = c := by
  rw [isLowerAlpha] at h
  have hb := of_decide_eq_true h
  rw [jsCharLower, if_neg (by omega)]

lemma isUpperAlpha_jsCharUpper (c : Char) (h : isAsciiAlpha c = true) :
    isUpperAlpha (jsCharUpper c) = true := by
  rw [isAsciiAlpha, Bool.or_eq_true, isUpperAlpha, isLowerAlpha] at h
  rw [jsCharUpper, isUpperAlpha]
  rcases h with h | h
  · have hb := of_decide_eq_true h
    rw [if_neg (by omega)]
    exact decide_eq_true hb
  · have hb := of_decide_eq_true h
    rw [if_pos hb]
    rw [decide_eq_true_iff]
    rw [toNat_charOfNat (c.toNat - 32) (by omega)]
    omega

lemma jsCharUpper_fixes_upper (c : Char) (h : isUpperAlpha c = true) :
    jsCharUpper c = c := by
  rw [isUpperAlpha] at h
  have hb := of_decide_eq_true h
  rw [jsCharUpper, if_neg (by omega)]

lemma isAsciiAlpha_of_lower (c : Char) (h : isLowerAlpha c = true) :
    isAsciiAlpha c = true := by
  rw [isAsciiAlpha, Bool.or_eq_true]
  exact Or.inr h

lemma isAsciiAlpha_of_upper (c : Char) (h : isUpperAlpha c = true) :
    isAsciiAlpha c = true := by
  rw [isAsciiAlpha, Bool.or_eq_true]
  exact Or.inl h

lemma alpha_toNat_bounds (c : Char) (h : isAsciiAlpha c = true) :
    65 ≤ c.toNat ∧ c.toNat ≤ 122 := by
  rw [isAsciiAlpha, Bool.or_eq_true, isUpperAlpha, isLowerAlpha] at h
  rcases h with h | h
  · have := of_decide_eq_true h
    omega
  · have := of_decide_eq_true h
    omega

lemma char_toNat_inj_ne (c d : Char) (h : c.toNat ≠ d.toNat) : c ≠ d := by
  intro heq
  exact h (congrArg Char.toNat heq)

lemma alpha_ne_dash (c : Char) (h : isAsciiAlpha c = true) : c ≠ '-' := by
  have hb := alpha_toNat_bounds c h
  apply char_toNat_inj_ne
  intro hc
  rw [show ('-').toNat = 45 from rfl] at hc
  omega

lemma isJsWs_eq_false_of_alpha_or_dash (c : Char)
    (h : isAsciiAlpha c = true ∨ c = '-') : isJsWs c = false := by
  rcases h with h | rfl
  · have hb := alpha_toNat_bounds c h
    rw [isJsWs]
    simp only [Bool.or_eq_false_iff]
    refine ⟨⟨⟨⟨⟨?_, ?_⟩, ?_⟩, ?_⟩, ?_⟩, ?_⟩ <;>
      · simp only [decide_eq_false_iff_not]
        intro heq
        subst heq
        exact absurd hb (by decide)
  · decide

lemma splitOnDash_no_dash (l : List Char) (h : ∀ c ∈ l, c ≠ '-') :
    splitOnDash l = [l] := by
  induction l with
  | nil => rfl
  | cons c rest ih =>
    have hc : c ≠ '-' := h c (by simp)
    rw [splitOnDash, if_neg hc, ih (fun x hx => h x (by simp [hx]))]

lemma splitOnDash_ne_nil (l : List Char) : splitOnDash l ≠ [] := by
  cases l with
  | nil => simp [splitOnDash]
  | cons c rest =>
    rw [splitOnDash]
    by_cases hc : c = '-'
    · rw [if_pos hc]
      simp
    · rw [if_neg hc]
      rcases hmatch : splitOnDash rest with _ | ⟨p, ps⟩ <;> simp

lemma splitOnDash_append (l r : List Char) (h : ∀ c ∈ l, c ≠ '-') :
    splitOnDash (l ++ '-' :: r) = l :: splitOnDash r := by
  induction l with
  | nil => rw [List.nil_append, splitOnDash, if_pos rfl]
  | cons c rest ih =>
    have hc : c ≠ '-' := h c (by simp)
    rw [List.cons_append, splitOnDash, if_neg hc,
        ih (fun x hx => h x (by simp [hx]))]

lemma dropWhile_eq_self_of_none (p : Char → Bool) (l : List Char)
    (h : ∀ c ∈ l, p c = false) : l.dropWhile p = l := by
  cases l with
  | nil => rfl
  | cons c rest =>
    rw [List.dropWhile_cons, if_neg]
    rw [h c (by simp)]
    simp

lemma trimList_eq_self (l : List Char) (h : ∀ c ∈ l, isJsWs c = false) :
    trimList l = l := by
  rw [trimList, dropWhile_eq_self_of_none _ _ h,
      dropWhile_eq_self_of_none _ _ (fun c hc => h c (List.mem_reverse.mp hc)),
      List.reverse_reverse]

lemma langRegexTest_inv (l : List Char) (h : langRegexTest l = true) :
    (∃ a b, l = [a, b] ∧ isAsciiAlpha a = true ∧ isAsciiAlpha b = true) ∨
    (∃ a b rest, l = a :: b :: '-' :: rest ∧ isAsciiAlpha a = true ∧
      isAsciiAlpha b = true ∧ 2 ≤ rest.length ∧ rest.length ≤ 4 ∧
      ∀ c ∈ rest, isAsciiAlpha c = true) := by
  rw [langRegexTest.eq_def] at h
  split at h
  · rename_i a b
    simp only [Bool.and_eq_true] at h
    exact Or.inl ⟨a, b, rfl, h.1, h.2⟩
  · rename_i a b rest
    simp only [Bool.and_eq_true, decide_eq_true_iff, List.all_eq_true] at h
    exact Or.inr ⟨a, b, rest, rfl, h.1.1.1.1, h.1.1.1.2, h.1.1.2, h.1.2, h.2⟩
  · exact absurd h (by simp)

lemma lookup_mem_snd (key : String) (l : List (String × String)) (v : String)
    (h : l.lookup key = some v) : v ∈ l.map Prod.snd := by
  induction l with
  | nil => simp [List.lookup] at h
  | cons p rest ih =>
    rw [List.lookup] at h
    by_cases hk : (key == p.1) = true
    · rw [hk] at h
      simp only [Option.some.injEq] at h
      subst h
      simp
    · rw [Bool.not_eq_true] at hk
      rw [hk] at h
      simp only [List.map_cons, List.mem_cons]
      exact Or.inr (ih h)

lemma mk_cons_ne_empty (c : Char) (cs : List Char) : String.mk (c :: cs) ≠ "" := by
  intro h
  simpa using congrArg String.data h

lemma jsTrim_mk_of_no_ws (l : List Char) (h : ∀ c ∈ l, isJsWs c = false) :
    jsTrim (String.mk l) = String.mk l := by
  rw [jsTrim, show (String.mk l).data = l from rfl, trimList_eq_self l h]

lemma jsAutoTest_false_of_length (s : String) (h : s.data.length ≠ 4) :
    jsAutoTest s = false := by
  rw [jsAutoTest]
  apply decide_eq_false
  intro heq
  have := congrArg (fun t => t.data.length) heq
  simp only [jsToLower, show (String.mk (s.data.map jsCharLower)).data = s.data.map jsCharLower
    from rfl, List.length_map] at this
  exact h (by simpa using this)

/-- `normLangBackend` fixes a two-letter lower-case code. -/
lemma norm_fix_lower2 (a b : Char) (ha : isLowerAlpha a = true) (hb : isLowerAlpha b = true) :
    normLangBackend (String.mk [a, b]) = String.mk [a, b] := by
  have hAa := isAsciiAlpha_of_lower a ha
  have hAb := isAsciiAlpha_of_lower b hb
  have hnws : ∀ c ∈ [a, b], isJsWs c = false := by
    intro c hc
    rcases (by simpa using hc : c = a ∨ c = b) with rfl | rfl
    · exact isJsWs_eq_false_of_alpha_or_dash _ (Or.inl hAa)
    · exact isJsWs_eq_false_of_alpha_or_dash _ (Or.inl hAb)
  have htrim := jsTrim_mk_of_no_ws [a, b] hnws
  rw [normLangBackend, if_neg (mk_cons_ne_empty a [b]), htrim,
      jsAutoTest_false_of_length _ (by simp),
      show (String.mk [a, b]).data = [a, b] from rfl]
  rw [show langRegexTest [a, b] = true by rw [langRegexTest]; simp [hAa, hAb]]
  rw [splitOnDash_no_dash [a, b]
      (by intro c hc
          rcases (by simpa using hc : c = a ∨ c = b) with rfl | rfl
          · exact alpha_ne_dash _ hAa
          · exact alpha_ne_dash _ hAb)]
  simp only [Bool.false_eq_true, if_false, if_true]
  rw [jsToLower]
  rw [show (String.mk [a, b]).data = [a, b] from rfl]
  simp [jsCharLower_fixes_lower a ha, jsCharLower_fixes_lower b hb]

/-- `normLangBackend` fixes a `lang-REGION` code. -/
lemma norm_fix_region (a b : Char) (rest : List Char)
    (ha : isLowerAlpha a = true) (hb : isLowerAlpha b = true)
    (hr2 : 2 ≤ rest.length) (hr4 : rest.length ≤ 4)
    (hall : ∀ c ∈ rest, isUpperAlpha c = true) :
    normLangBackend (String.mk (a :: b :: '-' :: rest)) =
      String.mk (a :: b :: '-' :: rest) := by
  have hAa := isAsciiAlpha_of_lower a ha
  have hAb := isAsciiAlpha_of_lower b hb
  have hnws : ∀ c ∈ a :: b :: '-' :: rest, isJsWs c = false := by
    intro c hc
    simp only [List.mem_cons] at hc
    rcases hc with rfl | rfl | rfl | hc
    · exact isJsWs_eq_false_of_alpha_or_dash _ (Or.inl hAa)
    · exact isJsWs_eq_false_of_alpha_or_dash _ (Or.inl hAb)
    · exact isJsWs_eq_false_of_alpha_or_dash _ (Or.inr rfl)
    · exact isJsWs_eq_false_of_alpha_or_dash _ (Or.inl (isAsciiAlpha_of_upper _ (hall _ hc)))
  have htrim := jsTrim_mk_of_no_ws _ hnws
  have hlen : (a :: b :: '-' :: rest).length ≠ 4 := by
    simp only [List.length_cons]
    omega
  rw [normLangBackend, if_neg (mk_cons_ne_empty _ _), htrim,
      jsAutoTest_false_of_length _ (by simpa using hlen),
      show (String.mk (a :: b :: '-' :: rest)).data = a :: b :: '-' :: rest from rfl]
  rw [show langRegexTest (a :: b :: '-' :: rest) = true by
    rw [langRegexTest]
    simp only [Bool.and_eq_true, decide_eq_true_iff, List.all_eq_true]
    exact ⟨⟨⟨⟨hAa, hAb⟩, hr2⟩, hr4⟩, fun c hc => isAsciiAlpha_of_upper _ (hall c hc)⟩]
  rw [show (a :: b :: '-' :: rest) = [a, b] ++ '-' :: rest from rfl,
      splitOnDash_append [a, b] rest
        (by intro c hc
            rcases (by simpa using hc : c = a ∨ c = b) with rfl | rfl
            · exact alpha_ne_dash _ hAa
            · exact alpha_ne_dash _ hAb),
      splitOnDash_no_dash rest
        (fun c hc => alpha_ne_dash _ (isAsciiAlpha_of_upper _ (hall c hc)))]
  simp only [Bool.false_eq_true, if_false, if_true]
  apply String.ext
  simp only [String.data_append]
  have hmap : List.map jsCharUpper rest = rest := by
    rw [List.map_congr_left (fun c hc => jsCharUpper_fixes_upper c (hall c hc))]
    simp
  simp [jsCharLower_fixes_lower a ha, jsCharLower_fixes_lower b hb, hmap]

lemma norm_fix_mapLookup (key : String) :
    normShape (langMapLookup key) = true ∧
    normLangBackend (langMapLookup key) = langMapLookup key := by
  rw [langMapLookup]
  cases hl : LANG_MAP_BACKEND.lookup key with
  | none => exact ⟨by decide, by decide⟩
  | some v =>
    have hmem := lookup_mem_snd key _ v hl
    fin_cases hmem <;> exact ⟨by decide, by decide⟩

/-- Master lemma: every `normLangBackend` output has the asserted shape and
is a fixed point of `normLangBackend`. -/
lemma norm_result (s : String) :
    normShape (normLangBackend s) = true ∧
    normLangBackend (normLangBackend s) = normLangBackend s := by
  by_cases h0 : s = ""
  · subst h0
    exact ⟨by decide, by decide⟩
  · by_cases hA : jsAutoTest (jsTrim s) = true
    · have hv : normLangBackend s = "auto" := by
        rw [normLangBackend, if_neg h0, if_pos hA]
      rw [hv]
      exact ⟨by decide, by decide⟩
    · by_cases hR : langRegexTest (jsTrim s).data = true
      · rcases langRegexTest_inv _ hR with
          ⟨a, b, hdata, hAa, hAb⟩ | ⟨a, b, rest, hdata, hAa, hAb, hr2, hr4, hall⟩
        · have hsplit : splitOnDash (jsTrim s).data = [[a, b]] := by
            rw [hdata]
            exact splitOnDash_no_dash _
              (by intro c hc
                  rcases (by simpa using hc : c = a ∨ c = b) with rfl | rfl
                  · exact alpha_ne_dash _ hAa
                  · exact alpha_ne_dash _ hAb)
          have hv : normLangBackend s = jsToLower (jsTrim s) := by
            rw [normLangBackend, if_neg h0, if_neg hA, if_pos hR, hsplit]
          have ho : jsToLower (jsTrim s) = String.mk [jsCharLower a, jsCharLower b] := by
            rw [jsToLower, hdata]
            rfl
          have hla := isLowerAlpha_jsCharLower a hAa
          have hlb := isLowerAlpha_jsCharLower b hAb
          rw [hv, ho]
          constructor
          · rw [normShape]
            simp [isLower2Code, hla, hlb]
          · exact norm_fix_lower2 _ _ hla hlb
        · have hsplit : splitOnDash (jsTrim s).data = [[a, b], rest] := by
            rw [hdata, show a :: b :: '-' :: rest = [a, b] ++ '-' :: rest from rfl,
                splitOnDash_append [a, b] rest
                  (by intro c hc
                      rcases (by simpa using hc : c = a ∨ c = b) with rfl | rfl
                      · exact alpha_ne_dash _ hAa
                      · exact alpha_ne_dash _ hAb),
                splitOnDash_no_dash rest (fun c hc => alpha_ne_dash _ (hall c hc))]
          have hv : normLangBackend s =
              String.mk (List.map jsCharLower [a, b]) ++ "-" ++
                String.mk (List.map jsCharUpper rest) := by
            rw [normLangBackend, if_neg h0, if_neg hA, if_pos hR, hsplit]
          have ho : String.mk (List.map jsCharLower [a, b]) ++ "-" ++
              String.mk (List.map jsCharUpper rest) =
              String.mk (jsCharLower a :: jsCharLower b :: '-' :: List.map jsCharUpper rest) := by
            apply String.ext
            simp [String.data_append]
          have hla := isLowerAlpha_jsCharLower a hAa
          have hlb := isLowerAlpha_jsCharLower b hAb
          have hup : ∀ c ∈ List.map jsCharUpper rest, isUpperAlpha c = true := by
            intro c hc
            rw [List.mem_map] at hc
            obtain ⟨d, hd, rfl⟩ := hc
            exact isUpperAlpha_jsCharUpper d (hall d hd)
          rw [hv, ho]
          constructor
          · have hshape : isLangRegion (jsCharLower a :: jsCharLower b :: '-' ::
                List.map jsCharUpper rest) = true := by
              rw [isLangRegion]
              simp only [Bool.and_eq_true, decide_eq_true_iff, List.all_eq_true, List.length_map]
              exact ⟨⟨⟨⟨hla, hlb⟩, hr2⟩, hr4⟩, hup⟩
            rw [normShape]
            simp [hshape]
          · exact norm_fix_region _ _ _ hla hlb (by simpa using hr2) (by simpa using hr4) hup
      · have hv : normLangBackend s =
            langMapLookup (String.mk (removeParens (wsToUnderscore
              (jsToLower (jsTrim s)).data))) := by
          rw [normLangBackend, if_neg h0, if_neg hA, if_neg hR]
        rw [hv]
        exact norm_fix_mapLookup _

/-! ## Support lemmas for the translation claims -/

lemma mirrorLoop_allFail (text tgt : String)
    (ms : List (String → String → Option String)) (n : ℕ)
    (h : ∀ m ∈ ms, m text tgt = none ∨ m text tgt = some "") :
    mirrorLoop text tgt ms n = (text, n + ms.length) := by
  induction ms generalizing n with
  | nil => simp [mirrorLoop]
  | cons m ms ih =>
    rcases h m (by simp) with hm | hm
    · rw [mirrorLoop, hm, ih (n + 1) (fun x hx => h x (by simp [hx]))]
      simp only [List.length_cons]
      ring_nf
    · rw [mirrorLoop, hm]
      show (if ("" : String) ≠ "" then (("" : String), n + 1)
        else mirrorLoop text tgt ms (n + 1)) = (text, n + (m :: ms).length)
      rw [if_neg (by simp)]
      rw [ih (n + 1) (fun x hx => h x (by simp [hx]))]
      simp only [List.length_cons]
      ring_nf

lemma translateWithMyMemory_allFail (mm : String → String → String → Option String)
    (mirrors : List (String → String → Option String)) (text src tgt : String)
    (hmm : mm text src tgt = none ∨ mm text src tgt = some "")
    (hms : ∀ m ∈ mirrors, m text (jsToLower tgt) = none ∨ m text (jsToLower tgt) = some "") :
    (translateWithMyMemory mm mirrors text src tgt).1 = text := by
  have hfb : translateTextWithFallback mirrors text tgt = (text, mirrors.length) := by
    rw [translateTextWithFallback, mirrorLoop_allFail text (jsToLower tgt) mirrors 0 hms]
    simp
  rcases hmm with hm | hm
  · rw [translateWithMyMemory, hm, hfb]
    simp
  · rw [translateWithMyMemory, hm]
    show (if ("" : String) ≠ "" then (("" : String), 1)
      else ((if (translateTextWithFallback mirrors text tgt).1 ≠ "" ∧
              (translateTextWithFallback mirrors text tgt).1 ≠ text
            then (translateTextWithFallback mirrors text tgt).1 else text),
            (translateTextWithFallback mirrors text tgt).2 + 1)).1 = text
    rw [if_neg (by simp), hfb]
    simp

/-- The effect of one pass of the translation loop on one segment: a new
segment with the same `start`/`stop` and the translated (or passed-through)
text. -/
def translateSegFn (mm : String → String → String → Option String)
    (mirrors : List (String → String → Option String)) (src tgt : String)
    (sg : Seg) : Seg :=
  { sg with text :=
      if (translateWithMyMemory mm mirrors (jsOrStr sg.text "")
            (jsOrStr src "auto") tgt).1 = ""
      then jsOrStr sg.text ""
      else (translateWithMyMemory mm mirrors (jsOrStr sg.text "")
            (jsOrStr src "auto") tgt).1 }

lemma translateLoop_fst (mm : String → String → String → Option String)
    (mirrors : List (String → String → Option String)) (src tgt : String)
    (segs : List Seg) :
    (translateLoop mm mirrors src tgt segs).1 =
      segs.map (translateSegFn mm mirrors src tgt) := by
  induction segs with
  | nil => rfl
  | cons sg rest ih =>
    rw [translateLoop]
    simp only [List.map_cons]
    rw [← ih]
    rfl

/-! ## Claim theorems -/

/-- C1 (counterexample): on the token stream `(0s,3s), (3s,4s), (4s,9s)` the
segment loop does NOT produce cues `[0,4)` and `[4,9)`.  It appends the
overflowing token before the span check, so the first pushed cue is
`[0,9]` with text `"t1 t2 t3"`, and the third token also seeds the second
cue `[4,9]` — the overflowing token appears in two cues. -/
theorem C1_cueBuilder_example_refuted :
    buildSegments c1tokens = [⟨0, 9, "t1 t2 t3"⟩, ⟨4, 9, "t3"⟩] ∧
    buildSegments c1tokens ≠ [⟨0, 4, "t1 t2"⟩, ⟨4, 9, "t3"⟩] := by
  constructor
  · norm_num [buildSegments, c1tokens, stepWord, appendTok]
    decide
  · norm_num [buildSegments, c1tokens, stepWord, appendTok]
    decide

/-- C1 (amended): when adding a token makes the cumulative span since cue
start exceed 5.0 seconds, the cue is closed AFTER that token: the closed cue
ends at the overflowing token's end time and contains its text (appended by
`appendTok`), and the same token seeds the next open cue — so the
overflowing token appears both in the closed cue and in the next one. -/
theorem C1_overflow_token_closes_after (st : BuildState) (w : Word)
    (hover : w.stop / 1000 - st.blockTime > 5) :
    stepWord st w =
      { seg := ⟨w.start / 1000, w.stop / 1000, w.text⟩,
        blockTime := w.start / 1000,
        acc := st.acc ++ [⟨st.seg.start, w.stop / 1000, appendTok st.seg.text w.text⟩] } := by
  simp [stepWord, hover]

/-- C1 (witness for the amended theorem): concrete overflow step. -/
theorem C1_overflow_token_closes_after_witness :
    stepWord ⟨⟨0, 4, "t1 t2"⟩, 0, []⟩ ⟨4000, 9000, "t3"⟩ =
      { seg := ⟨4, 9, "t3"⟩, blockTime := 4,
        acc := [⟨0, 9, appendTok "t1 t2" "t3"⟩] } := by
  have h := C1_overflow_token_closes_after ⟨⟨0, 4, "t1 t2"⟩, 0, []⟩ ⟨4000, 9000, "t3"⟩
    (by norm_num)
  rw [h]
  norm_num

/-- C9: a nonempty token stream in which every token's end lies within 5.0
seconds of the first token's start (the boundary case of exactly 5.0 does
not close the cue, as the source uses strict `>`) produces exactly one cue
spanning from the first token's start to the last token's end, with the
tokens' texts joined by single spaces. -/
theorem C9_single_cue_within_budget (w0 : Word) (rest : List Word)
    (hspan : ∀ w ∈ w0 :: rest, w.stop / 1000 - w0.start / 1000 ≤ 5)
    (htext : 0 < w0.text.length) :
    buildSegments (w0 :: rest) =
      [⟨w0.start / 1000, lastStop (w0.stop / 1000) rest,
        spaceJoin ((w0 :: rest).map Word.text)⟩] := by
  rw [buildSegments]
  have hw0 : ¬ (w0.stop / 1000 - w0.start / 1000 > 5) := by
    have := hspan w0 (by simp)
    linarith
  have hstep0 : stepWord ⟨⟨w0.start / 1000, 0, ""⟩, w0.start / 1000, []⟩ w0 =
      ⟨⟨w0.start / 1000, w0.stop / 1000, "" ++ w0.text⟩, w0.start / 1000, []⟩ := by
    simp [stepWord, appendTok, hw0]
  rw [List.foldl_cons, hstep0,
      foldl_stepWord_no_overflow rest ⟨w0.start / 1000, w0.stop / 1000, "" ++ w0.text⟩
        (w0.start / 1000) []
        (fun x hx => hspan x (by simp [hx]))
        (by simpa using htext)]
  have hne : w0.text ++ spaceJoinAux (rest.map Word.text) ≠ "" := by
    intro h
    have h2 : (w0.text ++ spaceJoinAux (rest.map Word.text)).length = 0 := by rw [h]; rfl
    simp at h2
    omega
  simp [spaceJoin, hne]

/-- C9 (witness): two tokens spanning exactly 5.0 seconds — one cue. -/
theorem C9_single_cue_within_budget_witness :
    buildSegments [⟨0, 3000, "hi"⟩, ⟨3000, 5000, "there"⟩] =
      [⟨0, 5, "hi there"⟩] := by
  have h := C9_single_cue_within_budget ⟨0, 3000, "hi"⟩ [⟨3000, 5000, "there"⟩]
    (by intro w hw
        rcases (by simpa using hw :
          w = (⟨0, 3000, "hi"⟩ : Word) ∨ w = (⟨3000, 5000, "there"⟩ : Word)) with rfl | rfl
        · norm_num
        · norm_num)
    (by decide)
  rw [h]
  norm_num [lastStop, spaceJoin, spaceJoinAux]
  decide

/-- C6 (counterexample): negative input is NOT encoded as zero.  Both
encoders emit negative field values: `toVttTime(-1)` is `"-1:-1:-1.000"`,
not `"00:00:00.000"`. -/
theorem C6_negative_not_zero :
    toVttTime (some (-1)) ≠ "00:00:00.000" ∧
    secToVttTimestamp (some (-1)) ≠ "00:00:00.000" := by
  have h1 : ⌊jsOr0 (some (-1)) * 1000⌋ = (-1000 : ℤ) := by
    norm_num [jsOr0]
  have h2 : jsRound (jsOr0 (some (-1)) * 1000) = (-1000 : ℤ) := by
    norm_num [jsOr0, jsRound]
  rw [toVttTime, secToVttTimestamp, h1, h2]
  constructor <;> decide

/-- C6 (amended): `encode(0) = "00:00:00.000"`, `encode(3661.234) =
"01:01:01.234"`, and NaN input encodes as zero, for both encoders; but a
negative input is not clamped — `encode(-1) = "-1:-1:-1.000"`. -/
theorem C6_encoder_values :
    toVttTime (some 0) = "00:00:00.000" ∧
    toVttTime none = "00:00:00.000" ∧
    toVttTime (some (3661234/1000)) = "01:01:01.234" ∧
    secToVttTimestamp (some 0) = "00:00:00.000" ∧
    secToVttTimestamp none = "00:00:00.000" ∧
    secToVttTimestamp (some (3661234/1000)) = "01:01:01.234" ∧
    toVttTime (some (-1)) = "-1:-1:-1.000" ∧
    secToVttTimestamp (some (-1)) = "-1:-1:-1.000" := by
  have t1 : ⌊jsOr0 (some (0 : ℚ)) * 1000⌋ = (0 : ℤ) := by norm_num [jsOr0]
  have t2 : ⌊jsOr0 (none : Option ℚ) * 1000⌋ = (0 : ℤ) := by norm_num [jsOr0]
  have t3 : ⌊jsOr0 (some (3661234/1000 : ℚ)) * 1000⌋ = (3661234 : ℤ) := by
    norm_num [jsOr0]
  have t4 : jsRound (jsOr0 (some (0 : ℚ)) * 1000) = (0 : ℤ) := by
    norm_num [jsOr0, jsRound]
  have t5 : jsRound (jsOr0 (none : Option ℚ) * 1000) = (0 : ℤ) := by
    norm_num [jsOr0, jsRound]
  have t6 : jsRound (jsOr0 (some (3661234/1000 : ℚ)) * 1000) = (3661234 : ℤ) := by
    norm_num [jsOr0, jsRound]
  have t7 : ⌊jsOr0 (some (-1 : ℚ)) * 1000⌋ = (-1000 : ℤ) := by norm_num [jsOr0]
  have t8 : jsRound (jsOr0 (some (-1 : ℚ)) * 1000) = (-1000 : ℤ) := by
    norm_num [jsOr0, jsRound]
  refine ⟨?_, ?_, ?_, ?_, ?_, ?_, ?_, ?_⟩
  · rw [toVttTime, t1]; decide
  · rw [toVttTime, t2]; decide
  · rw [toVttTime, t3]; decide
  · rw [secToVttTimestamp, t4]; decide
  · rw [secToVttTimestamp, t5]; decide
  · rw [secToVttTimestamp, t6]; decide
  · rw [toVttTime, t7]; decide
  · rw [secToVttTimestamp, t8]; decide

/-- C7 (counterexample): the two encoders disagree on 0.0005 seconds — the
truncating `toVttTime` gives `".000"` while the rounding
`secToVttTimestamp` gives `".001"`. -/
theorem C7_encoders_disagree :
    toVttTime (some (1/2000)) ≠ secToVttTimestamp (some (1/2000)) := by
  have h1 : ⌊jsOr0 (some (1/2000 : ℚ)) * 1000⌋ = (0 : ℤ) := by
    norm_num [jsOr0]
  have h2 : jsRound (jsOr0 (some (1/2000 : ℚ)) * 1000) = (1 : ℤ) := by
    norm_num [jsOr0, jsRound]
  rw [toVttTime, secToVttTimestamp, h1, h2]
  decide

/-- C7 (amended): the truncating and the rounding encoder agree exactly on
inputs that are a whole (nonnegative) number of milliseconds; they differ
on fractional-millisecond inputs (see the counterexample). -/
theorem C7_encoders_agree_on_whole_ms (n : ℕ) :
    toVttTime (some ((n : ℚ) / 1000)) = secToVttTimestamp (some ((n : ℚ) / 1000)) := by
  rw [toVttTime, secToVttTimestamp, jsOr0_some]
  have hmul : ((n : ℚ) / 1000) * 1000 = (n : ℚ) := by field_simp
  rw [hmul, jsRound_natCast, Int.floor_natCast, vttFromMs_eq_secFromMs]

lemma secTs_zero : secToVttTimestamp (some 0) = "00:00:00.000" := by
  have h : jsRound (jsOr0 (some (0 : ℚ)) * 1000) = (0 : ℤ) := by norm_num [jsOr0, jsRound]
  rw [secToVttTimestamp, h]
  decide

lemma secTs_one : secToVttTimestamp (some 1) = "00:00:01.000" := by
  have h : jsRound (jsOr0 (some (1 : ℚ)) * 1000) = (1000 : ℤ) := by norm_num [jsOr0, jsRound]
  rw [secToVttTimestamp, h]
  decide

lemma vttTime_zero : toVttTime (some 0) = "00:00:00.000" := by
  have h : ⌊jsOr0 (some (0 : ℚ)) * 1000⌋ = (0 : ℤ) := by norm_num [jsOr0]
  rw [toVttTime, h]
  decide

lemma vttTime_one : toVttTime (some 1) = "00:00:01.000" := by
  have h : ⌊jsOr0 (some (1 : ℚ)) * 1000⌋ = (1000 : ℤ) := by norm_num [jsOr0]
  rw [toVttTime, h]
  decide

/-- C8 (counterexample): the transcription-time renderer `buildVtt` does not
normalize CRLF — for the cue text `"a\r\nb"` the rendered output still
contains the CRLF pair, refuting the claim for this renderer. -/
theorem C8_buildVtt_keeps_crlf :
    ['\r', '\n'] <:+: (buildVtt [⟨0, 1, "a\r\nb"⟩] "").data := by
  have hval : buildVtt [⟨0, 1, "a\r\nb"⟩] "" =
      "WEBVTT\n\n" ++ (toString (0 + 1) ++ "\n" ++ "00:00:00.000" ++ " --> " ++
        "00:00:01.000" ++ "\n" ++ jsOrStr "a\r\nb" "" ++ "\n\n" ++ "") := by
    rw [buildVtt, if_neg (by simp), buildVttBody, buildVttBody, vttTime_zero, vttTime_one]
  rw [hval]
  decide

/-- C8 (amended): the translation-time renderer `buildVttFromSegments` emits
per cue the 1-based number, the timestamp line, the text with CRLF
normalized to LF (`jsReplaceCRLF` inside `cueBlock`), and a blank separator
line; for the text `"a\r\nb"` its output contains `"a\nb"` and no CRLF.
The transcription-time renderer `buildVtt` has the same block layout but
emits the cue text verbatim, without CRLF normalization. -/
theorem C8_renderer_structure :
    (∀ segs, segs ≠ [] →
      buildVttFromSegments segs ++ "\n" = "WEBVTT\n\n" ++ cueBlocks 0 segs) ∧
    buildVttFromSegments [⟨0, 1, "a\r\nb"⟩] =
      "WEBVTT\n\n1\n00:00:00.000 --> 00:00:01.000\na\nb\n" ∧
    ¬ (['\r', '\n'] <:+: (buildVttFromSegments [⟨0, 1, "a\r\nb"⟩]).data) ∧
    buildVtt [⟨0, 1, "a\r\nb"⟩] "" =
      "WEBVTT\n\n1\n00:00:00.000 --> 00:00:01.000\na\r\nb\n\n" := by
  have hval : buildVttFromSegments [⟨0, 1, "a\r\nb"⟩] =
      joinLines ["WEBVTT", "", toString (0 + 1),
        "00:00:00.000" ++ " --> " ++ "00:00:01.000", jsReplaceCRLF (jsOrStr "a\r\nb" ""), ""] := by
    rw [buildVttFromSegments, vttLinesFrom, vttLinesFrom, secTs_zero, secTs_one]
    rfl
  have hval2 : buildVtt [⟨0, 1, "a\r\nb"⟩] "" =
      "WEBVTT\n\n" ++ (toString (0 + 1) ++ "\n" ++ "00:00:00.000" ++ " --> " ++
        "00:00:01.000" ++ "\n" ++ jsOrStr "a\r\nb" "" ++ "\n\n" ++ "") := by
    rw [buildVtt, if_neg (by simp), buildVttBody, buildVttBody, vttTime_zero, vttTime_one]
  refine ⟨buildVttFromSegments_blocks, ?_, ?_, ?_⟩
  · rw [hval]; decide
  · rw [hval]; decide
  · rw [hval2]; decide

/-- C8 (witness for the amended theorem's universal part): the block formula
at a concrete one-cue list. -/
theorem C8_renderer_structure_witness :
    buildVttFromSegments [⟨0, 1, "x"⟩] ++ "\n" =
      "WEBVTT\n\n" ++ cueBlocks 0 [⟨0, 1, "x"⟩] := by
  exact C8_renderer_structure.1 [⟨0, 1, "x"⟩] (by simp)

/-- C2 (counterexample): when the object-store remote fetch fails for a
non-video-host URL, the acquirer does NOT attempt the streaming strategy —
it falls back directly to the full local download and upload.  Concretely,
the attempted strategies are `[remoteFetch, downloadThenUpload]` and
`streamUpload` is never among them. -/
theorem C2_stream_strategy_skipped :
    (acquireNonYT (.error "fetch failed") (.ok "/tmp/f.mp4")
        (fun _ => .ok ⟨"https://store/f", "pid"⟩)).2 =
      [Strategy.remoteFetch, Strategy.downloadThenUpload] ∧
    Strategy.streamUpload ∉
      (acquireNonYT (.error "fetch failed") (.ok "/tmp/f.mp4")
        (fun _ => .ok ⟨"https://store/f", "pid"⟩)).2 := by
  constructor <;> decide

/-- C2 (amended): on remote-fetch failure the non-YouTube chain goes
directly to download-then-upload (never the streaming strategy), for every
download/upload outcome; separately, the standalone streaming helper
`uploadRemoteUrlToCloudinaryStream` — present in the source but not invoked
by the route — makes at most 3 attempts with at most 2 sleeps, and with
jitter in `[0, 500)` each sleep before retry `k + 2` is between
`2^(k+1) * 1000` ms and `2^(k+1) * 1000 + 500` ms. -/
theorem C2_chain_and_retry :
    (∀ (e : String) (dl : Except String String)
        (ul : String → Except String UploadResult),
      (acquireNonYT (.error e) dl ul).2 =
        [Strategy.remoteFetch, Strategy.downloadThenUpload] ∧
      Strategy.streamUpload ∉ (acquireNonYT (.error e) dl ul).2) ∧
    (∀ (outcome : ℕ → Except String UploadResult) (jitter : ℕ → ℚ),
      (∀ a, 0 ≤ jitter a ∧ jitter a < 500) →
      (uploadRemoteUrlToCloudinaryStream outcome jitter).2.2 ≤ 3 ∧
      (uploadRemoteUrlToCloudinaryStream outcome jitter).2.1.length ≤ 2 ∧
      (∀ k, k < (uploadRemoteUrlToCloudinaryStream outcome jitter).2.1.length →
        ((2 : ℤ) ^ (k + 1) * 1000 ≤
            (uploadRemoteUrlToCloudinaryStream outcome jitter).2.1.getD k 0 ∧
         (uploadRemoteUrlToCloudinaryStream outcome jitter).2.1.getD k 0 ≤
            (2 : ℤ) ^ (k + 1) * 1000 + 500))) := by
  constructor
  · intro e dl ul
    have hval : (acquireNonYT (.error e) dl ul).2 =
        [Strategy.remoteFetch, Strategy.downloadThenUpload] := by
      rw [acquireNonYT.eq_def]
      rcases dl with ed | fp
      · rfl
      · rcases hu : ul fp with eu | ru <;> simp [hu]
    rw [hval]
    exact ⟨rfl, by decide⟩
  · exact uploadStream_retry_bounds

/-- C2 (witness): the chain part at a concrete failing fetch, and the retry
part with always-failing attempts and constant jitter 100, which sleeps
exactly 2100 ms and 4100 ms. -/
theorem C2_chain_and_retry_witness :
    (acquireNonYT (.error "boom") (.error "download failed")
        (fun _ => .error "unused")).2 =
      [Strategy.remoteFetch, Strategy.downloadThenUpload] ∧
    (uploadRemoteUrlToCloudinaryStream (fun _ => .error "http 500")
        (fun _ => 100)).2.2 ≤ 3 := by
  constructor
  · exact (C2_chain_and_retry.1 "boom" (.error "download failed") (fun _ => .error "unused")).1
  · exact (C2_chain_and_retry.2 (fun _ => .error "http 500") (fun _ => 100)
      (fun a => by norm_num)).1

lemma jsOrStr_empty_right (t : String) : jsOrStr t "" = t := by
  by_cases h : t = "" <;> simp [jsOrStr, h]

lemma normShape_empty_false : normShape "" = false := by decide

lemma forall2_map_text (segs : List Seg) (f : Seg → String) :
    List.Forall₂ (fun s t => t.start = s.start ∧ t.stop = s.stop) segs
      (segs.map fun sg => { sg with text := f sg }) := by
  induction segs with
  | nil => exact List.Forall₂.nil
  | cons s rest ih => exact List.Forall₂.cons ⟨rfl, rfl⟩ ih

/-- C3 (counterexample): with normalized source and target both `"en"`
(equal, non-auto), a Devanagari segment triggers the script-inference
override (`srcLang === "en"` is treated as suspicious), so the provider IS
called and the output differs from the input; additionally, an empty
segment list yields a 400 error rather than a success with unchanged cues. -/
theorem C3_same_lang_not_always_skipped :
    normLangBackend "en" = "en" ∧
    translateSubtitles (fun t _ _ => some ("X" ++ t)) [] [⟨0, 1, "नमस्ते"⟩] "en" "en" =
      .ok ([⟨0, 1, "Xनमस्ते"⟩], 1) ∧
    translateSubtitles (fun t _ _ => some ("X" ++ t)) [] [] "fr" "fr" =
      .error "No segments to translate (provide segments or transcriptId)" := by
  refine ⟨by decide, ?_, ?_⟩ <;> rfl

/-- C3 (amended): for a nonempty segment list, a present detected language,
and normalized source and target equal under case-insensitive comparison,
not `"auto"`, and with the normalized source not `"en"` (the value the
route treats as suspicious and may override by script inference), the route
returns the input segments unchanged as a success and makes no provider
calls. -/
theorem C3_same_lang_skip (mm : String → String → String → Option String)
    (mirrors : List (String → String → Option String))
    (segs : List Seg) (dl tl : String)
    (hsegs : segs ≠ []) (hdl : dl ≠ "")
    (hS_en : normLangBackend dl ≠ "en")
    (hS_auto : jsToLower (normLangBackend dl) ≠ "auto")
    (hEq : jsToLower (normLangBackend dl) = jsToLower (normLangBackend tl)) :
    translateSubtitles mm mirrors segs dl tl = .ok (segs, 0) := by
  have hS0 : normLangBackend dl ≠ "" := by
    intro h
    have hsh := (norm_result dl).1
    rw [h, normShape_empty_false] at hsh
    exact absurd hsh (by simp)
  have hSauto : normLangBackend dl ≠ "auto" := by
    intro h
    apply hS_auto
    rw [h]
    decide
  have htl : tl ≠ "" := by
    intro h
    subst h
    rw [show normLangBackend "" = "auto" from by decide] at hEq
    exact hS_auto (by rw [hEq]; decide)
  have hcond : ¬ ((normLangBackend dl = "" ∨ normLangBackend dl = "auto" ∨
      normLangBackend dl = "en") ∧ segs ≠ []) :=
    fun hcon => hcon.1.elim hS0 (fun h2 => h2.elim hSauto hS_en)
  simp only [translateSubtitles, if_neg htl, if_pos hdl, if_neg hcond, if_neg hsegs,
    jsOrStr, if_neg hS0]
  rw [if_pos ⟨hS_auto, hEq⟩]

/-- C3 (witness): concrete same-language skip with source `"fr"` and target
`"FR"`. -/
theorem C3_same_lang_skip_witness :
    translateSubtitles (fun _ _ _ => none) [] [⟨0, 1, "hello"⟩] "fr" "FR" =
      .ok ([⟨0, 1, "hello"⟩], 0) := by
  exact C3_same_lang_skip (fun _ _ _ => none) [] [⟨0, 1, "hello"⟩] "fr" "FR"
    (by simp) (by simp) (by decide) (by decide) (by decide)

lemma forall2_translateSegFn (mm : String → String → String → Option String)
    (mirrors : List (String → String → Option String)) (src tgt : String)
    (segs : List Seg) :
    List.Forall₂ (fun s t => t.start = s.start ∧ t.stop = s.stop) segs
      (segs.map (translateSegFn mm mirrors src tgt)) := by
  induction segs with
  | nil => exact List.Forall₂.nil
  | cons s rest ih => exact List.Forall₂.cons ⟨rfl, rfl⟩ ih

/-- C4: whenever the translate-subtitles route returns a segment list, that
list has the same length and order as the input, and every output segment
keeps the corresponding input segment's `start` and `end` times — only the
text may differ. -/
theorem C4_translation_preserves_timing (mm : String → String → String → Option String)
    (mirrors : List (String → String → Option String))
    (segs : List Seg) (dl tl : String) (out : List Seg) (n : ℕ)
    (h : translateSubtitles mm mirrors segs dl tl = .ok (out, n)) :
    List.Forall₂ (fun s t => t.start = s.start ∧ t.stop = s.stop) segs out := by
  simp only [translateSubtitles] at h
  repeat' split at h
  all_goals try exact Except.noConfusion h
  all_goals
    have hpair := Except.ok.inj h
  all_goals
    first
      | (have hout : out = segs := (congrArg Prod.fst hpair).symm
         subst hout
         exact List.forall₂_same.mpr (fun x _ => ⟨rfl, rfl⟩))
      | (have hfst := congrArg Prod.fst hpair
         simp only [] at hfst
         rw [translateLoop_fst] at hfst
         rw [← hfst]
         exact forall2_translateSegFn mm mirrors _ _ segs)

/-- C4 (witness): a concrete run whose result is computed and fed back to
the theorem. -/
theorem C4_translation_preserves_timing_witness :
    List.Forall₂ (fun s t => t.start = s.start ∧ t.stop = s.stop)
      [(⟨0, 1, "a"⟩ : Seg)] [(⟨0, 1, "a"⟩ : Seg)] :=
  C4_translation_preserves_timing (fun _ _ _ => none) [] [⟨0, 1, "a"⟩] "" "de"
    [⟨0, 1, "a"⟩] 1 (by rfl)

/-- C5: if, for the segment at index `i`, the primary MyMemory call fails or
returns empty and every mirror fails or returns empty, then the translation
loop still processes every segment of the batch (its output is exactly the
per-segment translation map over the whole input), and the output text at
index `i` equals the input text — the failed segment degrades to
passthrough without aborting the batch. -/
theorem C5_all_providers_fail_passthrough (mm : String → String → String → Option String)
    (mirrors : List (String → String → Option String)) (src tgt : String)
    (segs : List Seg) (i : ℕ) (hi : i < segs.length)
    (hmm : mm (jsOrStr (segs.get ⟨i, hi⟩).text "") (jsOrStr src "auto") tgt = none ∨
           mm (jsOrStr (segs.get ⟨i, hi⟩).text "") (jsOrStr src "auto") tgt = some "")
    (hmir : ∀ m ∈ mirrors,
      m (jsOrStr (segs.get ⟨i, hi⟩).text "") (jsToLower tgt) = none ∨
      m (jsOrStr (segs.get ⟨i, hi⟩).text "") (jsToLower tgt) = some "") :
    (translateLoop mm mirrors src tgt segs).1 =
      segs.map (translateSegFn mm mirrors src tgt) ∧
    translateSegFn mm mirrors src tgt (segs.get ⟨i, hi⟩) = segs.get ⟨i, hi⟩ := by
  refine ⟨translateLoop_fst mm mirrors src tgt segs, ?_⟩
  have hfail := translateWithMyMemory_allFail mm mirrors
    (jsOrStr (segs.get ⟨i, hi⟩).text "") (jsOrStr src "auto") tgt hmm hmir
  rw [translateSegFn, hfail, ite_self, jsOrStr_empty_right]

/-- C5 (witness): two segments, all providers failing on the first. -/
theorem C5_all_providers_fail_passthrough_witness :
    (translateLoop (fun _ _ _ => none) [fun _ _ => none] "es" "en"
        [⟨0, 1, "hola"⟩, ⟨1, 2, "mundo"⟩]).1 =
      [⟨0, 1, "hola"⟩, ⟨1, 2, "mundo"⟩].map
        (translateSegFn (fun _ _ _ => none) [fun _ _ => none] "es" "en") ∧
    translateSegFn (fun _ _ _ => none) [fun _ _ => none] "es" "en"
        ([(⟨0, 1, "hola"⟩ : Seg), ⟨1, 2, "mundo"⟩].get ⟨0, by simp⟩) =
      [(⟨0, 1, "hola"⟩ : Seg), ⟨1, 2, "mundo"⟩].get ⟨0, by simp⟩ :=
  C5_all_providers_fail_passthrough (fun _ _ _ => none) [fun _ _ => none] "es" "en"
    [⟨0, 1, "hola"⟩, ⟨1, 2, "mundo"⟩] 0 (by simp)
    (Or.inl rfl)
    (by intro m hm
        simp only [List.mem_singleton] at hm
        subst hm
        exact Or.inl rfl)


/-! ## Prototype-chain model of the `LANG_MAP_BACKEND[key]` property access

`LANG_MAP_BACKEND` is a plain object literal, so the JS bracket access
`LANG_MAP_BACKEND[key]` consults the prototype chain when `key` is not an
own entry.  The key fed to it is produced by `toLowerCase` (lower-casing
every ASCII upper-case letter), so it can never contain an ASCII upper-case
letter; among the `Object.prototype` property names
(`constructor`, `hasOwnProperty`, `isPrototypeOf`, `propertyIsEnumerable`,
`toLocaleString`, `toString`, `valueOf`, `__defineGetter__`,
`__defineSetter__`, `__lookupGetter__`, `__lookupSetter__`, `__proto__`)
exactly two are free of upper-case letters and therefore reachable:
`"constructor"` (the inherited `Object.prototype.constructor` function) and
`"__proto__"` (the accessor returning `Object.prototype`).  Both values are
truthy non-strings, so `|| "auto"` does not replace them and
`normLangBackend` returns a non-string object. -/

/-- A JS value as it can flow out of `normLangBackend`: a string, or one of
the truthy non-string objects inherited from `Object.prototype`
(`protoObj "constructor"` is the `Object` constructor function,
`protoObj "__proto__"` is `Object.prototype`). -/
inductive JsVal where
  | str (s : String)
  | protoObj (name : String)
deriving DecidableEq

/-- Does `key` hit an inherited `Object.prototype` property?  Only the two
names without ASCII upper-case letters are reachable after `toLowerCase`. -/
def protoChainHit (key : String) : Bool :=
  key = "constructor" || key = "__proto__"

/-- The lookup key built by `normLangBackend`:
`s.toLowerCase().replace(/\s+/g, "_").replace(/[()]/g, "")` applied to the
trimmed input. -/
def normKey (l : String) : String :=
  String.mk (removeParens (wsToUnderscore (jsToLower (jsTrim l)).data))

/-- The full JS property access `LANG_MAP_BACKEND[key]`: an own entry, else
an inherited `Object.prototype` member, else `undefined` (`none`). -/
def langMapAccess (key : String) : Option JsVal :=
  match LANG_MAP_BACKEND.lookup key with
  | some v => some (.str v)
  | none => if protoChainHit key then some (.protoObj key) else none

/-- JS `a || b` on these values: among them only the empty string is falsy. -/
def jsOrVal (a b : JsVal) : JsVal :=
  if a = .str "" then b else a

/-- `normLangBackend` with the faithful prototype-chain property access in
the map branch; the other branches are unchanged and produce strings. -/
def normLangBackendJS (l : String) : JsVal :=
  if l = "" then .str "auto"
  else if jsAutoTest (jsTrim l) then .str "auto"
  else if langRegexTest (jsTrim l).data then
    .str (match splitOnDash (jsTrim l).data with
      | [p, q] => String.mk (p.map jsCharLower) ++ "-" ++ String.mk (q.map jsCharUpper)
      | _ => jsToLower (jsTrim l))
  else
    match langMapAccess (normKey l) with
    | some v => jsOrVal v (.str "auto")
    | none => .str "auto"

/-- JS `String(v)` for the two reachable inherited objects:
`String(Object.prototype.constructor)` and `String(Object.prototype)`. -/
def protoToString : String → String
  | "constructor" => "function Object() \x7b [native code] \x7d"
  | _ => "[object Object]"

/-- Applying `normLangBackend` to a value that may not be a string (as JS
does on a second application): objects are truthy, so `!l` fails and
`String(l)` stringifies them before the normal pipeline. -/
def normLangBackendVal : JsVal → JsVal
  | .str s => normLangBackendJS s
  | .protoObj name => normLangBackendJS (protoToString name)

lemma langMapAccess_no_proto (key : String) (h : protoChainHit key = false) :
    (match langMapAccess key with
      | some v => jsOrVal v (JsVal.str "auto")
      | none => JsVal.str "auto") = JsVal.str (langMapLookup key) := by
  cases hl : LANG_MAP_BACKEND.lookup key with
  | none => simp [langMapAccess, langMapLookup, hl, h]
  | some v =>
    by_cases hv : v = ""
    · subst hv
      simp [langMapAccess, langMapLookup, hl, jsOrVal, jsOrStr]
    · simp [langMapAccess, langMapLookup, hl, jsOrVal, jsOrStr, hv]

/-- Off the two prototype-chain keys, the JS-value normalizer agrees with
the string-level one. -/
lemma normJS_bridge (l : String) (h : protoChainHit (normKey l) = false) :
    normLangBackendJS l = JsVal.str (normLangBackend l) := by
  rw [normLangBackendJS, normLangBackend]
  by_cases h0 : l = ""
  · rw [if_pos h0, if_pos h0]
  · rw [if_neg h0, if_neg h0]
    by_cases hA : jsAutoTest (jsTrim l) = true
    · rw [if_pos hA, if_pos hA]
    · rw [if_neg hA, if_neg hA]
      by_cases hR : langRegexTest (jsTrim l).data = true
      · rw [if_pos hR, if_pos hR]
      · rw [if_neg hR, if_neg hR]
        exact langMapAccess_no_proto (normKey l) h

lemma trimList_length_le (l : List Char) : (trimList l).length ≤ l.length := by
  rw [trimList]
  have h1 : (l.dropWhile isJsWs).length ≤ l.length :=
    List.Sublist.length_le (List.dropWhile_sublist isJsWs)
  have h2 : ((l.dropWhile isJsWs).reverse.dropWhile isJsWs).length ≤
      (l.dropWhile isJsWs).reverse.length :=
    List.Sublist.length_le (List.dropWhile_sublist isJsWs)
  simp only [List.length_reverse] at h2 ⊢
  omega

lemma wsToUnderscoreAux_length_le (l : List Char) (b : Bool) :
    (wsToUnderscoreAux b l).length ≤ l.length := by
  induction l generalizing b with
  | nil => simp [wsToUnderscoreAux]
  | cons c rest ih =>
    rw [wsToUnderscoreAux]
    cases hws : isJsWs c
    · rw [if_neg (by simp [hws])]
      have := ih false
      simp only [List.length_cons]
      omega
    · rw [if_pos rfl]
      cases b
      · rw [if_neg (by simp)]
        have := ih true
        simp only [List.length_cons]
        omega
      · rw [if_pos rfl]
        have := ih true
        simp only [List.length_cons]
        omega

lemma wsToUnderscore_length_le (l : List Char) :
    (wsToUnderscore l).length ≤ l.length :=
  wsToUnderscoreAux_length_le l false

lemma normKey_length_le (l : String) : (normKey l).data.length ≤ l.data.length := by
  rw [normKey]
  have h1 : (removeParens (wsToUnderscore (jsToLower (jsTrim l)).data)).length ≤
      (wsToUnderscore (jsToLower (jsTrim l)).data).length := by
    rw [removeParens]
    exact List.length_filter_le _ _
  have h2 := wsToUnderscore_length_le (jsToLower (jsTrim l)).data
  have h3 : (jsToLower (jsTrim l)).data.length = (jsTrim l).data.length := by
    rw [jsToLower]
    simp
  have h4 : (jsTrim l).data.length ≤ l.data.length := by
    rw [jsTrim]
    exact trimList_length_le l.data
  simp only [show (String.mk (removeParens (wsToUnderscore
    (jsToLower (jsTrim l)).data))).data =
    removeParens (wsToUnderscore (jsToLower (jsTrim l)).data) from rfl]
  omega

lemma isLower2Code_length (l : List Char) (h : isLower2Code l = true) :
    l.length = 2 := by
  rw [isLower2Code.eq_def] at h
  split at h
  · simp
  · exact absurd h (by simp)

lemma isLangRegion_length_le (l : List Char) (h : isLangRegion l = true) :
    l.length ≤ 7 := by
  rw [isLangRegion.eq_def] at h
  split at h
  · rename_i a b rest
    simp only [Bool.and_eq_true, decide_eq_true_iff] at h
    simp only [List.length_cons]
    omega
  · exact absurd h (by simp)

lemma normShape_length_le (o : String) (h : normShape o = true) :
    o.data.length ≤ 8 := by
  rw [normShape, Bool.or_eq_true, Bool.or_eq_true] at h
  rcases h with (h | h) | h
  · have ho := of_decide_eq_true h
    subst ho
    decide
  · have := isLower2Code_length o.data h
    omega
  · have := isLangRegion_length_le o.data h
    omega

lemma protoChainHit_false_of_length (key : String) (h : key.data.length ≤ 8) :
    protoChainHit key = false := by
  rw [protoChainHit]
  simp only [Bool.or_eq_false_iff, decide_eq_false_iff_not]
  constructor <;> intro heq <;> subst heq <;> exact absurd h (by decide)

lemma protoChainHit_normKey_of_shape (o : String) (h : normShape o = true) :
    protoChainHit (normKey o) = false := by
  apply protoChainHit_false_of_length
  have h1 := normKey_length_le o
  have h2 := normShape_length_le o h
  omega

/-- C10 (counterexample): on input `"constructor"` the map-branch property
access hits the inherited `Object.prototype.constructor`, a truthy
non-string object, so the normalizer's output is not a string of any of the
claimed shapes; re-applying the normalizer (JS stringifies the function
first) yields `"auto"`, so idempotence fails as well.  Input `"__proto__"`
likewise returns the inherited prototype object. -/
theorem C10_proto_chain_counterexample :
    normLangBackendJS "constructor" = JsVal.protoObj "constructor" ∧
    normLangBackendVal (normLangBackendJS "constructor") = JsVal.str "auto" ∧
    normLangBackendVal (normLangBackendJS "constructor") ≠
      normLangBackendJS "constructor" ∧
    normLangBackendJS "__proto__" = JsVal.protoObj "__proto__" := by
  refine ⟨by decide, by decide, by decide, by decide⟩

/-- C10 (amended): for every input string whose derived lookup key is not
one of the two reachable inherited `Object.prototype` property names
(`"constructor"`, `"__proto__"`), the normalizer returns a string — equal
to the own-entries model `normLangBackend` — of the asserted shape
(`"auto"`, a lower-case two-letter code, or lower-case language plus dash
plus upper-case region), and it is idempotent there (its outputs are at
most 8 characters long, so a second application can never hit the
prototype chain). -/
theorem C10_shape_idempotent_off_proto (s : String)
    (h : protoChainHit (normKey s) = false) :
    normLangBackendJS s = JsVal.str (normLangBackend s) ∧
    normShape (normLangBackend s) = true ∧
    normLangBackendVal (normLangBackendJS s) = normLangBackendJS s := by
  have hb := normJS_bridge s h
  refine ⟨hb, (norm_result s).1, ?_⟩
  rw [hb]
  show normLangBackendJS (normLangBackend s) = JsVal.str (normLangBackend s)
  rw [normJS_bridge (normLangBackend s)
      (protoChainHit_normKey_of_shape _ (norm_result s).1), (norm_result s).2]

/-- C10 (witness): concrete input `"Hindi"` — key `"hindi"` misses the
prototype chain; the normalizer returns the shaped string `"hi"` and is
idempotent on it. -/
theorem C10_shape_idempotent_off_proto_witness :
    normLangBackendJS "Hindi" = JsVal.str (normLangBackend "Hindi") ∧
    normShape (normLangBackend "Hindi") = true ∧
    normLangBackendVal (normLangBackendJS "Hindi") = normLangBackendJS "Hindi" :=
  C10_shape_idempotent_off_proto "Hindi" (by decide)
